import Mathlib

/-!
Shallow embedding of `src/bot.py` (TelegramCoinBot): the Subscription Store
access layer, the report formatter, the notification scheduler commands
(`settime`, `autoupdate`, `setinterval`), the scheduled fire (`send_rates`)
and startup rehydration (`on_startup`), together with theorems checking the
specification's claims about them.

Modelling conventions:
* The PostgreSQL tables `subscriptions`, `schedules`, `intervals` and
  `error_logs` become lists of rows inside a `Store` structure.  Row order in
  a relational table is unspecified, so an SQL upsert keyed on `chat_id` is
  modelled as `filter out the chat's row, append the new row`.
* Every store function in the Python source is wrapped in
  `try: ... except: log_error_to_db(...); return default`.  Each modelled
  operation takes a leading `fail : Bool` standing for "the storage layer
  raises during this operation"; `fail = true` follows the `except` branch
  (append an error-log row, return the default), `fail = false` the `try`
  branch.  Command-level functions run against a non-failing store.
* Prices are rationals (`ℚ`), standing for the Python floats; the fixed-point
  rendering `f"{x:.2f}"` is modelled by rounding to hundredths half-to-even.
* A `telegram.ext` job is a `Job` (kind + chat id); its `name` attribute is
  recomputed by `Job.pyName` exactly as the f-strings `f"daily_{chat_id}"` /
  `f"interval_{chat_id}"` build it.  `send_rates` recovers the chat id with
  `int(job.name.split("_")[-1])`, which returns the job's own chat id, so the
  model reads `job.chatId` directly.
-/

namespace CoinBot

/-- Python's `str.upper()` as applied to ticker symbols: uppercase each
character (stated on the character list so that it evaluates by `decide`). -/
def upper (s : String) : String := ⟨s.data.map Char.toUpper⟩

/-- A wall-clock time of day `HH:MM`, as stored in `schedules.notify_time`. -/
structure TimeHM where
  hh : Nat
  mm : Nat
deriving DecidableEq

/-- A row of the `schedules` table (`chat_id` is a unique key). -/
structure ScheduleRow where
  chatId : Int
  notifyTime : TimeHM
  enabled : Bool
deriving DecidableEq

/-- A row of the `intervals` table (`chat_id` is a unique key). -/
structure IntervalRow where
  chatId : Int
  intervalMinutes : Int
  enabled : Bool
deriving DecidableEq

/-- The durable state owned by the Subscription Store: the `subscriptions`,
`schedules`, `intervals` and `error_logs` tables.  An error-log row keeps the
failing function's name and the (nullable) chat id; the timestamp and the
exception text are runtime noise and are not modelled. -/
structure Store where
  subscriptions : List (Int × String)
  schedules : List ScheduleRow
  intervals : List IntervalRow
  errorLog : List (String × Option Int)
deriving DecidableEq

/-- The store with all four tables empty. -/
def emptyStore : Store := ⟨[], [], [], []⟩

/-- `log_error_to_db`: append a row to `error_logs`, touching nothing else. -/
def log_error_to_db (fname : String) (chat : Option Int) (s : Store) : Store :=
  { s with errorLog := s.errorLog ++ [(fname, chat)] }

/-- `add_subscription` (bot.py 197-220): `INSERT ... ON CONFLICT (chat_id,
symbol) DO NOTHING` of `(chat_id, symbol.upper())`; returns `rowcount == 1`. -/
def add_subscription (fail : Bool) (chat_id : Int) (symbol : String) (s : Store) :
    Bool × Store :=
  if fail then (false, log_error_to_db "add_subscription" (some chat_id) s)
  else
    let key := (chat_id, upper symbol)
    if key ∈ s.subscriptions then (false, s)
    else (true, { s with subscriptions := s.subscriptions ++ [key] })

/-- `remove_subscription` (bot.py 222-244): `DELETE ... WHERE chat_id = %s AND
symbol = %s` with the uppercased symbol; returns `rowcount == 1`. -/
def remove_subscription (fail : Bool) (chat_id : Int) (symbol : String) (s : Store) :
    Bool × Store :=
  if fail then (false, log_error_to_db "remove_subscription" (some chat_id) s)
  else
    let key := (chat_id, upper symbol)
    let changed := s.subscriptions.countP (fun p => p == key)
    (changed == 1, { s with subscriptions := s.subscriptions.filter (fun p => p != key) })

/-- `clear_subscriptions` (bot.py 246-268): `DELETE ... WHERE chat_id = %s`;
returns the number of rows removed. -/
def clear_subscriptions (fail : Bool) (chat_id : Int) (s : Store) : Nat × Store :=
  if fail then (0, log_error_to_db "clear_subscriptions" (some chat_id) s)
  else
    let deleted := s.subscriptions.countP (fun p => p.1 == chat_id)
    (deleted, { s with subscriptions := s.subscriptions.filter (fun p => p.1 != chat_id) })

/-- Lexicographic comparison of character lists by code point — the collation
of `ORDER BY symbol` on the ASCII ticker symbols. -/
def leChars : List Char → List Char → Bool
  | [], _ => true
  | _ :: _, [] => false
  | a :: as, b :: bs =>
    if a.toNat < b.toNat then true
    else if b.toNat < a.toNat then false
    else leChars as bs

/-- The alphabetical order on symbol strings. -/
def strLe (a b : String) : Prop := leChars a.data b.data = true

instance : DecidableRel strLe := fun a b =>
  inferInstanceAs (Decidable (leChars a.data b.data = true))

/-- `ORDER BY symbol`: alphabetical sort on the symbol strings. -/
def sortSymbols (l : List String) : List String :=
  List.insertionSort strLe l

/-- `list_subscriptions` (bot.py 270-292): `SELECT symbol ... WHERE chat_id =
%s ORDER BY symbol`. -/
def list_subscriptions (fail : Bool) (chat_id : Int) (s : Store) :
    List String × Store :=
  if fail then ([], log_error_to_db "list_subscriptions" (some chat_id) s)
  else (sortSymbols ((s.subscriptions.filter (fun p => p.1 == chat_id)).map Prod.snd), s)

/-- `upsert_schedule` (bot.py 294-316): `INSERT ... ON CONFLICT (chat_id) DO
UPDATE` on the `schedules` table. -/
def upsert_schedule (fail : Bool) (chat_id : Int) (notify_time : TimeHM) (enabled : Bool)
    (s : Store) : Unit × Store :=
  if fail then ((), log_error_to_db "upsert_schedule" (some chat_id) s)
  else
    ((), { s with schedules :=
      s.schedules.filter (fun r => r.chatId != chat_id) ++ [⟨chat_id, notify_time, enabled⟩] })

/-- `get_schedule` (bot.py 318-343): `SELECT notify_time, enabled ... WHERE
chat_id = %s`; `(None, False)` when no row exists. -/
def get_schedule (fail : Bool) (chat_id : Int) (s : Store) :
    (Option TimeHM × Bool) × Store :=
  if fail then ((none, false), log_error_to_db "get_schedule" (some chat_id) s)
  else
    match s.schedules.find? (fun r => r.chatId == chat_id) with
    | some r => ((some r.notifyTime, r.enabled), s)
    | none => ((none, false), s)

/-- `upsert_interval` (bot.py 345-377): with `interval_minutes = None` a bare
`UPDATE intervals SET enabled = %s WHERE chat_id = %s` (no insert when there is
no row); otherwise `INSERT ... ON CONFLICT (chat_id) DO UPDATE` of both
fields. -/
def upsert_interval (fail : Bool) (chat_id : Int) (interval_minutes : Option Int)
    (enabled : Bool) (s : Store) : Unit × Store :=
  if fail then ((), log_error_to_db "upsert_interval" (some chat_id) s)
  else
    match interval_minutes with
    | none =>
      ((), { s with intervals :=
        s.intervals.map (fun r => if r.chatId == chat_id then { r with enabled := enabled } else r) })
    | some m =>
      ((), { s with intervals :=
        s.intervals.filter (fun r => r.chatId != chat_id) ++ [⟨chat_id, m, enabled⟩] })

/-- `get_interval` (bot.py 379-403): `SELECT interval_minutes, enabled ...
WHERE chat_id = %s`; `(None, False)` when no row exists. -/
def get_interval (fail : Bool) (chat_id : Int) (s : Store) :
    (Option Int × Bool) × Store :=
  if fail then ((none, false), log_error_to_db "get_interval" (some chat_id) s)
  else
    match s.intervals.find? (fun r => r.chatId == chat_id) with
    | some r => ((some r.intervalMinutes, r.enabled), s)
    | none => ((none, false), s)

/-! ### Scheduler jobs (`telegram.ext.JobQueue`) -/

/-- The kind of an armed timer: `run_daily` (fires each day at a time of day)
or `run_repeating` (fires after `first` seconds, then every
`intervalMinutes` minutes). -/
inductive JobKind
  | daily (t : TimeHM)
  | repeating (intervalMinutes : Int) (first : Nat)
deriving DecidableEq

/-- One armed timer in the job queue. -/
structure Job where
  kind : JobKind
  chatId : Int
deriving DecidableEq

/-- The job's `name` attribute, exactly as the source builds it:
`f"daily_{chat_id}"` for daily jobs, `f"interval_{chat_id}"` for repeating
jobs. -/
def Job.pyName : Job → String
  | ⟨JobKind.daily _, c⟩ => "daily_" ++ toString c
  | ⟨JobKind.repeating _ _, c⟩ => "interval_" ++ toString c

/-- `f"daily_{chat_id}"`. -/
def dailyName (chat_id : Int) : String := "daily_" ++ toString chat_id

/-- `f"interval_{chat_id}"`. -/
def intervalName (chat_id : Int) : String := "interval_" ++ toString chat_id

/-- The in-memory timer registry: the list of armed jobs. -/
structure JobQueue where
  jobs : List Job
deriving DecidableEq

/-- `job_queue.run_daily(send_rates, t, chat_id=c, name=f"daily_{c}")`:
arms a new daily job (the library does not deduplicate by name). -/
def run_daily (chat_id : Int) (t : TimeHM) (q : JobQueue) : JobQueue :=
  ⟨q.jobs ++ [⟨JobKind.daily t, chat_id⟩]⟩

/-- `job_queue.run_repeating(send_rates, interval=..., first=..., chat_id=c,
name=f"interval_{c}")`. -/
def run_repeating (chat_id : Int) (m : Int) (first : Nat) (q : JobQueue) : JobQueue :=
  ⟨q.jobs ++ [⟨JobKind.repeating m first, chat_id⟩]⟩

/-- `for job in job_queue.get_jobs_by_name(n): job.schedule_removal()`:
drop every job whose name is `n`. -/
def removeJobsNamed (n : String) (q : JobQueue) : JobQueue :=
  ⟨q.jobs.filter (fun j => j.pyName != n)⟩

/-! ### Report formatter -/

/-- The `SYMBOL_NAMES` dictionary (bot.py 76-88): display name and currency
sign per known symbol. -/
def SYMBOL_NAMES : List (String × String × String) :=
  [("USD", "Доллар", "$"), ("EUR", "Евро", "$"), ("RUB", "Рубль", "$"),
   ("CNY", "Юань", "$"), ("BTC", "BTC", "$"), ("ETH", "ETH", "$"),
   ("XAU", "Золото", "$"), ("BRENT", "Brent", "$"), ("MOEX", "Мосбиржа", "$"),
   ("RTS", "РТС", "$"), ("RGBI", "RGBI", "$")]

/-- `SYMBOL_NAMES.get(sym, (sym, '$'))`. -/
def symbolName (sym : String) : String × String :=
  match SYMBOL_NAMES.find? (fun e => e.1 == sym) with
  | some e => e.2
  | none => (sym, "$")

/-- Left-pad a two-digit fractional part: `7 ↦ "07"`. -/
def pad2 (n : Nat) : String := if n < 10 then "0" ++ toString n else toString n

/-- Left-pad a three-digit thousands group: `7 ↦ "007"`. -/
def pad3 (n : Nat) : String :=
  if n < 10 then "00" ++ toString n
  else if n < 100 then "0" ++ toString n
  else toString n

/-- Round a rational to the nearest integer, ties to even — the rounding of
Python's fixed-point float formatting. -/
def rndHalfEven (q : ℚ) : Int :=
  let f : Int := Int.floor q
  let r : ℚ := q - (f : ℚ)
  if r < 1/2 then f
  else if 1/2 < r then f + 1
  else if 2 ∣ f then f else f + 1

/-- `f"{q:.2f}"`: fixed-point rendering with two decimals. -/
def fmt2 (q : ℚ) : String :=
  let n : Int := rndHalfEven (q * 100)
  (if n < 0 then "-" else "") ++ toString (n.natAbs / 100) ++ "." ++ pad2 (n.natAbs % 100)

/-- Recursion worker for the thousands grouping, structural on a fuel bound
(`fuel` at least the number itself always suffices, since dividing a number
that is at least 1000 by 1000 shrinks it). -/
def groupThousandsFuel : Nat → Nat → String
  | 0, n => toString n
  | fuel + 1, n =>
    if n < 1000 then toString n
    else groupThousandsFuel fuel (n / 1000) ++ " " ++ pad3 (n % 1000)

/-- Insert the thousands grouping of `f"{x:,}"` (with the separator already
replaced by a space) into a digit string. -/
def groupThousands (n : Nat) : String := groupThousandsFuel n n

/-- `f"{sign}{current:,.2f}".replace(",", " ")`: the price column. -/
def fmtPrice (sign : String) (q : ℚ) : String :=
  let n : Int := rndHalfEven (q * 100)
  sign ++ (if n < 0 then "-" else "")
    ++ groupThousands (n.natAbs / 100) ++ "." ++ pad2 (n.natAbs % 100)

/-- One line of a report, structured by the parts the f-strings interpolate:
`f"❓{name} — нет текущих данных"` or `f"{arrow}{name} {pct_str}  {price_str}"`. -/
inductive ReportLine
  | noData (name : String)
  | rate (arrow : String) (name : String) (pctStr : String) (priceStr : String)
deriving DecidableEq

/-- The per-symbol loop body shared verbatim by `rates_cmd` (bot.py 531-545)
and `send_rates` (bot.py 678-692), given the current price and the 24h-ago
price. -/
def rateLine (sym : String) (current : Option ℚ) (yesterday : Option ℚ) : ReportLine :=
  let name := (symbolName sym).1
  let sign := (symbolName sym).2
  match current with
  | none => ReportLine.noData name
  | some c =>
    match yesterday with
    | some y =>
      if y ≠ 0 then
        let pct : ℚ := (c - y) / y * 100
        let arrow := if 0 < pct then "🟢" else if pct < 0 then "🔻" else "⏺"
        let pctStr := (if 0 < pct then "+" else "") ++ fmt2 pct ++ "%"
        ReportLine.rate arrow name pctStr (fmtPrice sign c)
      else ReportLine.rate "⏺" name "0.00%" (fmtPrice sign c)
    | none => ReportLine.rate "⏺" name "0.00%" (fmtPrice sign c)

/-! ### Commands and scheduled fire -/

/-- The two price lookups a report makes per symbol: `get_exchange_rate(sym,
'USD')` (live quote provider, `None` on any failure) and
`get_yesterday_rate(sym)` (local `currency_data` history, `None` when
absent). -/
structure RatesOracle where
  current : String → Option ℚ
  yesterday : String → Option ℚ

/-- `settime_cmd` (bot.py 553-569) after integer parsing of `HH:MM`: on a
valid time, `upsert_schedule(chat_id, t, False)`; out-of-range values raise
`ValueError`, which the `except` branch logs. -/
def settime_cmd (chat_id : Int) (hh mm : Int) (s : Store) : Store :=
  if 0 ≤ hh ∧ hh < 24 ∧ 0 ≤ mm ∧ mm < 60 then
    (upsert_schedule false chat_id ⟨hh.toNat, mm.toNat⟩ false s).2
  else log_error_to_db "settime_cmd" (some chat_id) s

/-- `autoupdate_cmd` (bot.py 571-610): replies and does nothing when no
notify time is stored; on `"on"` enables the schedule and arms a daily job
(without removing existing ones); on `"off"` disables the schedule and
removes every job named `daily_{chat_id}`; any other mode only replies. -/
def autoupdate_cmd (chat_id : Int) (mode : String) (s : Store) (q : JobQueue) :
    Store × JobQueue :=
  match (get_schedule false chat_id s).1.1 with
  | none => (s, q)
  | some t =>
    if mode == "on" then
      ((upsert_schedule false chat_id t true s).2, run_daily chat_id t q)
    else if mode == "off" then
      ((upsert_schedule false chat_id t false s).2, removeJobsNamed (dailyName chat_id) q)
    else (s, q)

/-- `setinterval_cmd` (bot.py 612-640) after integer parsing: a non-positive
argument raises `ValueError` (logged by the `except` branch); otherwise the
interval row is upserted enabled, every job named `interval_{chat_id}` is
removed, and a repeating job with `first=0` is armed. -/
def setinterval_cmd (chat_id : Int) (minutes : Int) (s : Store) (q : JobQueue) :
    Store × JobQueue :=
  if minutes ≤ 0 then (log_error_to_db "setinterval_cmd" (some chat_id) s, q)
  else
    let s1 := (upsert_interval false chat_id (some minutes) true s).2
    let q1 := removeJobsNamed (intervalName chat_id) q
    (s1, run_repeating chat_id minutes 0 q1)

/-- `send_rates` (bot.py 664-704), the scheduled fire: recover the chat id
from the job, reload its subscriptions; when empty, disable the daily
schedule (re-upserting the stored time with `enabled=False`; when no schedule
row exists the Python passes `None` as the time and the `NOT NULL` insert
fails without effect, modelled as a no-op), disable the interval row, remove
the firing job and send nothing.  Otherwise build the report lines and send
them to the chat. -/
def send_rates (job : Job) (o : RatesOracle) (s : Store) (q : JobQueue) :
    Store × JobQueue × Option (Int × List ReportLine) :=
  let chat_id := job.chatId
  let subs := (list_subscriptions false chat_id s).1
  if subs.isEmpty then
    let s1 :=
      match (get_schedule false chat_id s).1.1 with
      | some t => (upsert_schedule false chat_id t false s).2
      | none => s
    let s2 := (upsert_interval false chat_id none false s1).2
    (s2, ⟨q.jobs.erase job⟩, none)
  else
    (s, q, some (chat_id, subs.map (fun sym => rateLine sym (o.current sym) (o.yesterday sym))))

/-- `on_startup` (bot.py 708-750): `SELECT chat_id, notify_time FROM schedules
WHERE enabled = TRUE` arming a daily job per row, then `SELECT chat_id,
interval_minutes FROM intervals WHERE enabled = TRUE` arming a repeating job
with `first=0` per row. -/
def on_startup (s : Store) (q : JobQueue) : JobQueue :=
  let q1 := (s.schedules.filter (fun r => r.enabled)).foldl
    (fun q r => run_daily r.chatId r.notifyTime q) q
  (s.intervals.filter (fun r => r.enabled)).foldl
    (fun q r => run_repeating r.chatId r.intervalMinutes 0 q) q1

/-- Fold `subscribe` commands over a list of symbols (the shape of repeated
`/subscribe` calls, or of the `subscribe_top20_cmd` loop). -/
def addAll (chat_id : Int) (syms : List String) (s : Store) : Store :=
  syms.foldl (fun s sym => (add_subscription false chat_id sym s).2) s

/-! ### Helper lemmas -/

/-- Unfolding of `add_subscription` on the non-failing path. -/
theorem add_subscription_ok (chat : Int) (sym : String) (s : Store) :
    add_subscription false chat sym s =
      if (chat, upper sym) ∈ s.subscriptions then (false, s)
      else (true, { s with subscriptions := s.subscriptions ++ [(chat, upper sym)] }) := rfl

/-- Unfolding of `remove_subscription` on the non-failing path. -/
theorem remove_subscription_ok (chat : Int) (sym : String) (s : Store) :
    remove_subscription false chat sym s =
      (s.subscriptions.countP (fun p => p == (chat, upper sym)) == 1,
        { s with subscriptions := s.subscriptions.filter (fun p => p != (chat, upper sym)) }) := rfl

/-- A key occurs positively often in a row list iff it is a row. -/
theorem countP_key_pos_iff (l : List (Int × String)) (k : Int × String) :
    0 < l.countP (fun p => p == k) ↔ k ∈ l := by
  rw [List.countP_pos_iff]
  simp

/-- In a duplicate-free row list every key occurs at most once. -/
theorem countP_key_le_one (l : List (Int × String)) (k : Int × String)
    (h : l.Nodup) : l.countP (fun p => p == k) ≤ 1 := by
  induction l with
  | nil => simp
  | cons a l ih =>
    rcases List.nodup_cons.mp h with ⟨ha, hl⟩
    rw [List.countP_cons]
    by_cases hk : a = k
    · subst hk
      have h0 : l.countP (fun p => p == a) = 0 := by
        rw [List.countP_eq_zero]
        intro p hp
        simp only [beq_iff_eq]
        rintro rfl
        exact ha hp
      simp [h0]
    · simp [hk, ih hl]

/-- After the upsert rewrite (drop the chat's row, append the new one), the
chat's schedule row is the appended one. -/
theorem find?_schedules_upsert (l : List ScheduleRow) (chat : Int) (t : TimeHM) (e : Bool) :
    ((l.filter (fun r => r.chatId != chat)) ++ [ScheduleRow.mk chat t e]).find?
        (fun r => r.chatId == chat) = some (ScheduleRow.mk chat t e) := by
  induction l with
  | nil => simp
  | cons a l ih =>
    by_cases h : a.chatId = chat
    · simp [List.filter_cons, h, ih]
    · simp [List.filter_cons, h, List.find?_cons, List.find?_append, ih]

/-- The `UPDATE intervals SET enabled = e WHERE chat_id = chat` rewrite only
changes the `enabled` field the lookup returns. -/
theorem find?_intervals_setEnabled (l : List IntervalRow) (chat : Int) (e : Bool) :
    (l.map (fun r => if r.chatId == chat then { r with enabled := e } else r)).find?
        (fun r => r.chatId == chat)
      = (l.find? (fun r => r.chatId == chat)).map (fun r => { r with enabled := e }) := by
  induction l with
  | nil => simp
  | cons a l ih =>
    by_cases h : a.chatId = chat
    · simp [h]
    · have hf : ((if a.chatId == chat then { a with enabled := e } else a) : IntervalRow) = a := by
        simp [h]
      rw [List.map_cons, hf, List.find?_cons_of_neg _ (by simp [h]),
        List.find?_cons_of_neg _ (by simp [h])]
      exact ih

/-- Unfolding of `get_schedule` on the non-failing path. -/
theorem get_schedule_ok (chat : Int) (s : Store) :
    get_schedule false chat s =
      (match s.schedules.find? (fun r => r.chatId == chat) with
        | some r => (some r.notifyTime, r.enabled)
        | none => (none, false), s) := by
  unfold get_schedule
  cases s.schedules.find? (fun r => r.chatId == chat) <;> rfl

/-- Unfolding of `get_interval` on the non-failing path. -/
theorem get_interval_ok (chat : Int) (s : Store) :
    get_interval false chat s =
      (match s.intervals.find? (fun r => r.chatId == chat) with
        | some r => (some r.intervalMinutes, r.enabled)
        | none => (none, false), s) := by
  unfold get_interval
  cases s.intervals.find? (fun r => r.chatId == chat) <;> rfl

/-- Looking up the chat's schedule right after upserting it returns exactly
the upserted time and flag. -/
theorem get_schedule_after_upsert (chat : Int) (t : TimeHM) (e : Bool) (s : Store) :
    (get_schedule false chat (upsert_schedule false chat t e s).2).1 = (some t, e) := by
  rw [get_schedule_ok]
  have hs : ((upsert_schedule false chat t e s).2).schedules
      = s.schedules.filter (fun r => r.chatId != chat) ++ [ScheduleRow.mk chat t e] := rfl
  rw [hs, find?_schedules_upsert]

/-- Arming one daily job per schedule row appends one job per row. -/
theorem foldl_run_daily (l : List ScheduleRow) (q : JobQueue) :
    (l.foldl (fun q r => run_daily r.chatId r.notifyTime q) q).jobs
      = q.jobs ++ l.map (fun r => Job.mk (JobKind.daily r.notifyTime) r.chatId) := by
  induction l generalizing q with
  | nil => simp
  | cons a l ih =>
    rw [List.foldl_cons, ih]
    simp [run_daily]

/-- Arming one repeating job per interval row appends one job per row. -/
theorem foldl_run_repeating (l : List IntervalRow) (q : JobQueue) :
    (l.foldl (fun q r => run_repeating r.chatId r.intervalMinutes 0 q) q).jobs
      = q.jobs ++ l.map (fun r => Job.mk (JobKind.repeating r.intervalMinutes 0) r.chatId) := by
  induction l generalizing q with
  | nil => simp
  | cons a l ih =>
    rw [List.foldl_cons, ih]
    simp [run_repeating]

/-- Removing all jobs of a name leaves no job of that name. -/
theorem filter_name_after_remove (l : List Job) (n : String) :
    ((l.filter (fun j => j.pyName != n)).filter (fun j => j.pyName == n)) = [] := by
  induction l with
  | nil => rfl
  | cons a l ih =>
    by_cases h : a.pyName = n
    · simp [List.filter_cons, h, ih]
    · simp [List.filter_cons, h, ih]

/-- Removing jobs of a name is idempotent. -/
theorem filter_ne_name_idem (l : List Job) (n : String) :
    ((l.filter (fun j => j.pyName != n)).filter (fun j => j.pyName != n))
      = l.filter (fun j => j.pyName != n) := by
  induction l with
  | nil => rfl
  | cons a l ih =>
    by_cases h : a.pyName = n
    · simp [List.filter_cons, h, ih]
    · simp [List.filter_cons, h, ih]

/-- A schedule lookup that reports no stored time also reports `enabled =
false` (no row at all). -/
theorem get_schedule_none_not_enabled (chat : Int) (s : Store)
    (h : ((get_schedule false chat s).1).1 = none) :
    ((get_schedule false chat s).1).2 = false := by
  rw [get_schedule_ok] at h ⊢
  cases hf : s.schedules.find? (fun r => r.chatId == chat) with
  | none => simp [hf]
  | some r =>
    rw [hf] at h
    simp at h

/-- Disabling the interval row (`upsert_interval` with no minutes) does not
touch the `schedules` table. -/
theorem get_schedule_after_interval_disable (chat : Int) (e : Bool) (s : Store) :
    (get_schedule false chat (upsert_interval false chat none e s).2).1
      = (get_schedule false chat s).1 := by
  rw [get_schedule_ok, get_schedule_ok]
  rfl

/-- After `UPDATE intervals SET enabled = FALSE WHERE chat_id = chat`, the
chat's interval row (if any) reads back disabled. -/
theorem get_interval_disable_false (chat : Int) (s : Store) :
    ((get_interval false chat (upsert_interval false chat none false s).2).1).2 = false := by
  rw [get_interval_ok]
  have hi : ((upsert_interval false chat none false s).2).intervals
      = s.intervals.map (fun r => if r.chatId == chat then { r with enabled := false } else r) :=
    rfl
  rw [hi, find?_intervals_setEnabled]
  cases s.intervals.find? (fun r => r.chatId == chat) <;> rfl

/-- Unfolding of `send_rates` when the chat's subscription list is empty. -/
theorem send_rates_empty (job : Job) (o : RatesOracle) (s : Store) (q : JobQueue)
    (h : (list_subscriptions false job.chatId s).1 = []) :
    send_rates job o s q =
      ((upsert_interval false job.chatId none false
          (match (get_schedule false job.chatId s).1.1 with
            | some t => (upsert_schedule false job.chatId t false s).2
            | none => s)).2,
        JobQueue.mk (q.jobs.erase job), none) := by
  simp only [send_rates, h, List.isEmpty_nil, if_true]

/-! ### Claims -/

/-- The store for the C1 run: chat 1 already did `/settime 09:00`. -/
def c1Store : Store := ⟨[], [⟨1, ⟨9, 0⟩, false⟩], [], []⟩

/-- C1: counterexample to the claimed at-most-one daily timer per chat.  With
a notify time stored, two consecutive `/autoupdate on` commands leave two jobs
named `daily_1` armed for chat 1: `autoupdate_cmd` never cancels an existing
daily timer before calling `run_daily` (unlike `setinterval_cmd`, which does
remove the old jobs first). -/
theorem c1_autoupdate_on_duplicates_daily_timer :
    ((autoupdate_cmd 1 "on" (autoupdate_cmd 1 "on" c1Store ⟨[]⟩).1
        (autoupdate_cmd 1 "on" c1Store ⟨[]⟩).2).2.jobs.filter
      (fun j => j.pyName == dailyName 1)).length = 2 := by decide

/-- C8: every Subscription Store operation, when the storage layer fails,
catches the failure, returns the safe default (`false`, `0`, `[]`,
`(none, false)`, `()`), and logs one row naming the operation to the error
log, leaving the three data tables untouched. -/
theorem c8_storage_failure_safe_defaults (chat : Int) (sym : String) (t : TimeHM)
    (m : Option Int) (e : Bool) (f : String) (s : Store) :
    add_subscription true chat sym s = (false, log_error_to_db "add_subscription" (some chat) s)
    ∧ remove_subscription true chat sym s
        = (false, log_error_to_db "remove_subscription" (some chat) s)
    ∧ clear_subscriptions true chat s = (0, log_error_to_db "clear_subscriptions" (some chat) s)
    ∧ list_subscriptions true chat s = ([], log_error_to_db "list_subscriptions" (some chat) s)
    ∧ upsert_schedule true chat t e s = ((), log_error_to_db "upsert_schedule" (some chat) s)
    ∧ get_schedule true chat s = ((none, false), log_error_to_db "get_schedule" (some chat) s)
    ∧ upsert_interval true chat m e s = ((), log_error_to_db "upsert_interval" (some chat) s)
    ∧ get_interval true chat s = ((none, false), log_error_to_db "get_interval" (some chat) s)
    ∧ (log_error_to_db f (some chat) s).subscriptions = s.subscriptions
    ∧ (log_error_to_db f (some chat) s).schedules = s.schedules
    ∧ (log_error_to_db f (some chat) s).intervals = s.intervals
    ∧ (log_error_to_db f (some chat) s).errorLog = s.errorLog ++ [(f, some chat)] :=
  ⟨rfl, rfl, rfl, rfl, rfl, rfl, rfl, rfl, rfl, rfl, rfl, rfl⟩

/-- C10: for a valid `HH:MM` argument, `settime_cmd` upserts the chat's
schedule to the given time with `enabled = false`, whatever the previous
schedule row was. -/
theorem c10_settime_stores_disabled (chat hh mm : Int) (s : Store)
    (h1 : 0 ≤ hh) (h2 : hh < 24) (h3 : 0 ≤ mm) (h4 : mm < 60) :
    (get_schedule false chat (settime_cmd chat hh mm s)).1
      = (some ⟨hh.toNat, mm.toNat⟩, false) := by
  unfold settime_cmd
  rw [if_pos ⟨h1, h2, h3, h4⟩]
  exact get_schedule_after_upsert chat ⟨hh.toNat, mm.toNat⟩ false s

/-- The store for the C10 witness: chat 7 has an enabled 08:00 schedule. -/
def c10Store : Store := ⟨[], [⟨7, ⟨8, 0⟩, true⟩], [], []⟩

/-- Witness for C10: `/settime 15:30` on a chat whose daily schedule was
enabled leaves the stored schedule at 15:30, disabled. -/
theorem c10_settime_witness :
    ((0:Int) ≤ 15 ∧ (15:Int) < 24 ∧ (0:Int) ≤ 30 ∧ (30:Int) < 60)
    ∧ (get_schedule false 7 (settime_cmd 7 15 30 c10Store)).1 = (some ⟨15, 30⟩, false) :=
  ⟨⟨by decide, by decide, by decide, by decide⟩,
    c10_settime_stores_disabled 7 15 30 c10Store (by decide) (by decide) (by decide) (by decide)⟩

/-- C5: `add_subscription` normalizes the symbol to uppercase before the
conflict lookup and the stored row, so symbols equal up to case behave
identically, and a second insert of the same symbol up to case returns
`false` and leaves the store unchanged. -/
theorem c5_add_subscription_case_insensitive (chat : Int) (sym1 sym2 : String) (s : Store)
    (h : upper sym1 = upper sym2) :
    add_subscription false chat sym1 s = add_subscription false chat sym2 s
    ∧ add_subscription false chat sym2 (add_subscription false chat sym1 s).2
        = (false, (add_subscription false chat sym1 s).2) := by
  refine ⟨by rw [add_subscription_ok, add_subscription_ok, h], ?_⟩
  rw [add_subscription_ok chat sym1 s]
  by_cases hm : (chat, upper sym1) ∈ s.subscriptions
  · rw [if_pos hm]
    rw [add_subscription_ok]
    rw [if_pos (by rw [← h]; exact hm)]
  · rw [if_neg hm]
    rw [add_subscription_ok]
    rw [if_pos (by rw [← h]; exact List.mem_append_right _ (List.mem_singleton.mpr rfl))]

/-- Witness for C5: `"btc"` then `"BTC"` on the empty store. -/
theorem c5_add_subscription_witness :
    upper "btc" = upper "BTC"
    ∧ (add_subscription false 1 "btc" emptyStore = add_subscription false 1 "BTC" emptyStore
      ∧ add_subscription false 1 "BTC" (add_subscription false 1 "btc" emptyStore).2
          = (false, (add_subscription false 1 "btc" emptyStore).2)) :=
  ⟨by decide, c5_add_subscription_case_insensitive 1 "btc" "BTC" emptyStore (by decide)⟩

/-- C9: over a duplicate-free `subscriptions` table, `remove_subscription`
returns `true` exactly when a row `(chat, upper sym)` existed, and on a
non-subscribed symbol it returns `false` with the store unchanged. -/
theorem c9_remove_subscription_iff (chat : Int) (sym : String) (s : Store)
    (h : s.subscriptions.Nodup) :
    ((remove_subscription false chat sym s).1 = true
        ↔ (chat, upper sym) ∈ s.subscriptions)
    ∧ ((chat, upper sym) ∉ s.subscriptions → remove_subscription false chat sym s = (false, s)) := by
  have hle := countP_key_le_one s.subscriptions (chat, upper sym) h
  have hpos := countP_key_pos_iff s.subscriptions (chat, upper sym)
  constructor
  · rw [remove_subscription_ok]
    simp only [beq_iff_eq]
    constructor
    · intro h1
      exact hpos.mp (by omega)
    · intro hm
      have := hpos.mpr hm
      omega
  · intro hm
    rw [remove_subscription_ok]
    have h0 : s.subscriptions.countP (fun p => p == (chat, upper sym)) = 0 := by
      rw [List.countP_eq_zero]
      intro p hp
      simp only [beq_iff_eq]
      rintro rfl
      exact hm hp
    have hf : s.subscriptions.filter (fun p => p != (chat, upper sym)) = s.subscriptions := by
      rw [List.filter_eq_self]
      intro p hp
      simp only [bne_iff_ne, ne_eq]
      rintro rfl
      exact hm hp
    rw [h0, hf]
    rfl

/-- C2: a scheduled fire that finds the chat's subscription list empty
disables the daily schedule and the interval schedule in the store, removes
the firing job from the queue, and sends no outbound message; otherwise it
leaves store and queue alone and delivers the report built from the
subscription list to the chat. -/
theorem c2_empty_fire_self_cleanup (job : Job) (o : RatesOracle) (s : Store) (q : JobQueue) :
    ((list_subscriptions false job.chatId s).1 = [] →
      ((get_schedule false job.chatId (send_rates job o s q).1).1).2 = false
      ∧ ((get_interval false job.chatId (send_rates job o s q).1).1).2 = false
      ∧ (send_rates job o s q).2.1 = JobQueue.mk (q.jobs.erase job)
      ∧ (send_rates job o s q).2.2 = none)
    ∧ ((list_subscriptions false job.chatId s).1 ≠ [] →
      send_rates job o s q
        = (s, q, some (job.chatId, (list_subscriptions false job.chatId s).1.map
            (fun sym => rateLine sym (o.current sym) (o.yesterday sym))))) := by
  refine ⟨fun h => ?_, fun h => ?_⟩
  case refine_2 =>
    cases hs : (list_subscriptions false job.chatId s).1 with
    | nil => exact absurd hs h
    | cons a rest =>
      simp only [send_rates, hs, List.isEmpty_cons, Bool.false_eq_true, if_false]
  rw [send_rates_empty job o s q h]
  refine ⟨?_, get_interval_disable_false _ _, rfl, rfl⟩
  rw [show ((((upsert_interval false job.chatId none false
        (match (get_schedule false job.chatId s).1.1 with
          | some t => (upsert_schedule false job.chatId t false s).2
          | none => s)).2,
      JobQueue.mk (q.jobs.erase job), none) :
        Store × JobQueue × Option (Int × List ReportLine)).1)
    = (upsert_interval false job.chatId none false
        (match (get_schedule false job.chatId s).1.1 with
          | some t => (upsert_schedule false job.chatId t false s).2
          | none => s)).2 from rfl]
  rw [congrArg Prod.snd (get_schedule_after_interval_disable job.chatId false _)]
  cases hg : (get_schedule false job.chatId s).1.1 with
  | some t => exact congrArg Prod.snd (get_schedule_after_upsert job.chatId t false s)
  | none => exact get_schedule_none_not_enabled job.chatId s hg

/-- The inputs for the C2 witness: chat 5 has an enabled 09:00 daily schedule,
an enabled 30-minute interval schedule and no subscriptions; its daily job
fires. -/
def c2Store : Store := ⟨[], [⟨5, ⟨9, 0⟩, true⟩], [⟨5, 30, true⟩], []⟩

/-- The firing job for the C2 witness. -/
def c2Job : Job := ⟨JobKind.daily ⟨9, 0⟩, 5⟩

/-- The price oracle for the C2 witness (nothing is looked up). -/
def c2Oracle : RatesOracle := ⟨fun _ => none, fun _ => none⟩

/-- The store for the second C2 witness part: chat 5 subscribed to BTC. -/
def c2bStore : Store := ⟨[(5, "BTC")], [⟨5, ⟨9, 0⟩, true⟩], [], []⟩

/-- Witness for C2: on an armed chat with no subscriptions the fire cleans
itself up silently; on a subscribed chat it delivers the report. -/
theorem c2_empty_fire_witness :
    ((list_subscriptions false c2Job.chatId c2Store).1 = []
      ∧ ((get_schedule false c2Job.chatId
            (send_rates c2Job c2Oracle c2Store ⟨[c2Job]⟩).1).1).2 = false
      ∧ ((get_interval false c2Job.chatId
            (send_rates c2Job c2Oracle c2Store ⟨[c2Job]⟩).1).1).2 = false
      ∧ (send_rates c2Job c2Oracle c2Store ⟨[c2Job]⟩).2.1
          = JobQueue.mk (([c2Job] : List Job).erase c2Job)
      ∧ (send_rates c2Job c2Oracle c2Store ⟨[c2Job]⟩).2.2 = none)
    ∧ ((list_subscriptions false c2Job.chatId c2bStore).1 ≠ []
      ∧ send_rates c2Job c2Oracle c2bStore ⟨[c2Job]⟩
          = (c2bStore, ⟨[c2Job]⟩,
              some (c2Job.chatId, (list_subscriptions false c2Job.chatId c2bStore).1.map
                (fun sym => rateLine sym (c2Oracle.current sym) (c2Oracle.yesterday sym))))) :=
  ⟨⟨by decide, (c2_empty_fire_self_cleanup c2Job c2Oracle c2Store ⟨[c2Job]⟩).1 (by decide)⟩,
    ⟨by decide, (c2_empty_fire_self_cleanup c2Job c2Oracle c2bStore ⟨[c2Job]⟩).2 (by decide)⟩⟩

/-- C3: `setinterval_cmd` with positive minutes leaves exactly one interval
job for the chat — the freshly armed one, repeating every `m` minutes with
zero first delay — and leaves all differently-named jobs untouched. -/
theorem c3_setinterval_single_timer (chat m : Int) (s : Store) (q : JobQueue) (h : 0 < m) :
    ((setinterval_cmd chat m s q).2.jobs.filter (fun j => j.pyName == intervalName chat))
      = [Job.mk (JobKind.repeating m 0) chat]
    ∧ ((setinterval_cmd chat m s q).2.jobs.filter (fun j => j.pyName != intervalName chat))
      = q.jobs.filter (fun j => j.pyName != intervalName chat) := by
  have hq : (setinterval_cmd chat m s q).2
      = JobQueue.mk ((q.jobs.filter (fun j => j.pyName != intervalName chat))
          ++ [Job.mk (JobKind.repeating m 0) chat]) := by
    unfold setinterval_cmd
    rw [if_neg (by omega)]
    rfl
  rw [hq]
  constructor
  · rw [List.filter_append, filter_name_after_remove]
    simp [Job.pyName, intervalName]
  · rw [List.filter_append, filter_ne_name_idem]
    simp [Job.pyName, intervalName]

/-- The mid state for the C3 witness: right after `/setinterval 30` on a
fresh chat. -/
def c3Mid : Store × JobQueue := setinterval_cmd 1 30 emptyStore ⟨[]⟩

/-- Witness for C3: `/setinterval 30` then `/setinterval 10` ends with the
10-minute repeating job as the only interval job for the chat. -/
theorem c3_setinterval_witness :
    (0:Int) < 10
    ∧ ((setinterval_cmd 1 10 c3Mid.1 c3Mid.2).2.jobs.filter
        (fun j => j.pyName == intervalName 1)) = [Job.mk (JobKind.repeating 10 0) 1]
    ∧ ((setinterval_cmd 1 10 c3Mid.1 c3Mid.2).2.jobs.filter
        (fun j => j.pyName != intervalName 1))
        = c3Mid.2.jobs.filter (fun j => j.pyName != intervalName 1) :=
  ⟨by decide, (c3_setinterval_single_timer 1 10 c3Mid.1 c3Mid.2 (by decide)).1,
    (c3_setinterval_single_timer 1 10 c3Mid.1 c3Mid.2 (by decide)).2⟩

/-- The persisted rows of the C7 example: `schedules(chat=1, time=08:00,
enabled=true)` and `intervals(chat=2, minutes=15, enabled=true)`. -/
def c7Store : Store := ⟨[], [⟨1, ⟨8, 0⟩, true⟩], [⟨2, 15, true⟩], []⟩

/-- C7: starting from no in-memory timers, `on_startup` arms exactly one
daily job per enabled schedule row and one zero-first-delay repeating job per
enabled interval row, and nothing else; on the example rows, exactly the two
matching timers. -/
theorem c7_startup_rehydration :
    (∀ s : Store, (on_startup s (JobQueue.mk [])).jobs
      = (s.schedules.filter (fun r => r.enabled)).map
          (fun r => Job.mk (JobKind.daily r.notifyTime) r.chatId)
        ++ (s.intervals.filter (fun r => r.enabled)).map
          (fun r => Job.mk (JobKind.repeating r.intervalMinutes 0) r.chatId))
    ∧ (on_startup c7Store (JobQueue.mk [])).jobs
        = [Job.mk (JobKind.daily ⟨8, 0⟩) 1, Job.mk (JobKind.repeating 15 0) 2] := by
  constructor
  · intro s
    unfold on_startup
    rw [foldl_run_repeating, foldl_run_daily]
    simp
  · decide

/-- Rounding an integer-valued rational returns that integer. -/
theorem rndHalfEven_intCast (n : Int) : rndHalfEven ((n : ℚ)) = n := by
  simp only [rndHalfEven, Int.floor_intCast, sub_self]
  rw [if_pos (by norm_num)]

/-- Evaluation of `fmt2` once the scaled value is a known integer. -/
theorem fmt2_int_div (n : Int) (q : ℚ) (h : q * 100 = (n : ℚ)) :
    fmt2 q = (if n < 0 then "-" else "")
      ++ toString (n.natAbs / 100) ++ "." ++ pad2 (n.natAbs % 100) := by
  unfold fmt2
  rw [h, rndHalfEven_intCast]

/-- Evaluation of `fmtPrice` once the scaled value is a known integer. -/
theorem fmtPrice_int (sign : String) (n : Int) (q : ℚ) (h : q * 100 = (n : ℚ)) :
    fmtPrice sign q = sign ++ (if n < 0 then "-" else "")
      ++ groupThousands (n.natAbs / 100) ++ "." ++ pad2 (n.natAbs % 100) := by
  unfold fmtPrice
  rw [h, rndHalfEven_intCast]

/-- Zero percent renders as "0.00". -/
theorem fmt2_zero : fmt2 0 = "0.00" := by
  rw [fmt2_int_div 0 0 (by norm_num)]
  decide

/-- C4: the report line per symbol.  No current price gives the no-data line.
With a present, non-zero prior the percent change is
`(current - prior) / prior * 100`, rendered with two decimals; the marker is
the up-marker for positive change (with an explicit plus sign), the
down-marker for negative change (the minus sign comes from the number), the
neutral marker and "0.00%" for zero change.  A missing or zero prior yields
the neutral marker and "0.00%" whatever the current price. -/
theorem c4_report_line_format (sym : String) (c y : ℚ) (yo : Option ℚ) :
    rateLine sym none yo = ReportLine.noData (symbolName sym).1
    ∧ (y ≠ 0 → 0 < (c - y) / y * 100 →
        rateLine sym (some c) (some y)
          = ReportLine.rate "🟢" (symbolName sym).1
              ("+" ++ fmt2 ((c - y) / y * 100) ++ "%") (fmtPrice (symbolName sym).2 c))
    ∧ (y ≠ 0 → (c - y) / y * 100 < 0 →
        rateLine sym (some c) (some y)
          = ReportLine.rate "🔻" (symbolName sym).1
              (fmt2 ((c - y) / y * 100) ++ "%") (fmtPrice (symbolName sym).2 c))
    ∧ (y ≠ 0 → (c - y) / y * 100 = 0 →
        rateLine sym (some c) (some y)
          = ReportLine.rate "⏺" (symbolName sym).1 "0.00%" (fmtPrice (symbolName sym).2 c))
    ∧ rateLine sym (some c) none
        = ReportLine.rate "⏺" (symbolName sym).1 "0.00%" (fmtPrice (symbolName sym).2 c)
    ∧ rateLine sym (some c) (some 0)
        = ReportLine.rate "⏺" (symbolName sym).1 "0.00%" (fmtPrice (symbolName sym).2 c) := by
  refine ⟨rfl, ?_, ?_, ?_, rfl, ?_⟩
  · intro hy hpos
    simp only [rateLine]
    rw [if_pos hy, if_pos hpos, if_pos hpos]
  · intro hy hneg
    simp only [rateLine]
    rw [if_pos hy, if_neg (by exact absurd · (by exact not_lt_of_gt hneg)),
      if_pos hneg, if_neg (by exact absurd · (by exact not_lt_of_gt hneg))]
    rfl
  · intro hy hz
    simp only [rateLine]
    rw [if_pos hy, hz]
    rw [if_neg (lt_irrefl 0), if_neg (lt_irrefl 0), if_neg (lt_irrefl 0), fmt2_zero]
    rfl
  · simp only [rateLine]
    rw [if_neg (by norm_num)]

/-- Witness for C4 at the spec's examples: prior 100 / current 110 gives
"+10.00%" with the up marker; prior 100 / current 90 gives "-10.00%" with the
down marker; a missing or zero prior gives a neutral "0.00%" line. -/
theorem c4_report_line_witness :
    ((100:ℚ) ≠ 0 ∧ 0 < ((110:ℚ) - 100) / 100 * 100
      ∧ rateLine "BTC" (some 110) (some 100)
          = ReportLine.rate "🟢" "BTC" "+10.00%" "$110.00")
    ∧ ((100:ℚ) ≠ 0 ∧ ((90:ℚ) - 100) / 100 * 100 < 0
      ∧ rateLine "BTC" (some 90) (some 100)
          = ReportLine.rate "🔻" "BTC" "-10.00%" "$90.00")
    ∧ rateLine "BTC" (some 110) none = ReportLine.rate "⏺" "BTC" "0.00%" "$110.00"
    ∧ rateLine "BTC" (some 110) (some 0) = ReportLine.rate "⏺" "BTC" "0.00%" "$110.00" := by
  refine ⟨⟨by norm_num, by norm_num, ?_⟩, ⟨by norm_num, by norm_num, ?_⟩, ?_, ?_⟩
  · rw [(c4_report_line_format "BTC" 110 100 none).2.1 (by norm_num) (by norm_num),
      fmt2_int_div 1000 (((110:ℚ) - 100) / 100 * 100) (by norm_num),
      fmtPrice_int (symbolName "BTC").2 11000 110 (by norm_num)]
    decide
  · rw [(c4_report_line_format "BTC" 90 100 none).2.2.1 (by norm_num) (by norm_num),
      fmt2_int_div (-1000) (((90:ℚ) - 100) / 100 * 100) (by norm_num),
      fmtPrice_int (symbolName "BTC").2 9000 90 (by norm_num)]
    decide
  · rw [(c4_report_line_format "BTC" 110 0 none).2.2.2.2.1,
      fmtPrice_int (symbolName "BTC").2 11000 110 (by norm_num)]
    decide
  · rw [(c4_report_line_format "BTC" 110 0 none).2.2.2.2.2,
      fmtPrice_int (symbolName "BTC").2 11000 110 (by norm_num)]
    decide

/-- Characters with equal code points are equal. -/
theorem char_eq_of_toNat_eq {a b : Char} (h : a.toNat = b.toNat) : a = b := by
  cases a with | mk av ap =>
  cases b with | mk bv bp =>
  simp only [Char.toNat] at h
  cases UInt32.toNat.inj h
  rfl

/-- The symbol collation is total. -/
theorem leChars_total (as bs : List Char) : leChars as bs = true ∨ leChars bs as = true := by
  induction as generalizing bs with
  | nil => left; rfl
  | cons a as ih =>
    cases bs with
    | nil => right; rfl
    | cons b bs =>
      by_cases h1 : a.toNat < b.toNat
      · left; simp [leChars, h1]
      · by_cases h2 : b.toNat < a.toNat
        · right; simp [leChars, h2]
        · rcases ih bs with h | h
          · left; simp [leChars, h1, h2, h]
          · right; simp [leChars, h1, h2, h]

/-- The symbol collation is transitive. -/
theorem leChars_trans (as bs cs : List Char) (h1 : leChars as bs = true)
    (h2 : leChars bs cs = true) : leChars as cs = true := by
  induction as generalizing bs cs with
  | nil => rfl
  | cons a as ih =>
    cases bs with
    | nil => simp [leChars] at h1
    | cons b bs =>
      cases cs with
      | nil => simp [leChars] at h2
      | cons c cs =>
        simp only [leChars] at h1 h2 ⊢
        by_cases hab : a.toNat < b.toNat
        · by_cases hbc : b.toNat < c.toNat
          · simp [Nat.lt_trans hab hbc]
          · by_cases hcb : c.toNat < b.toNat
            · rw [if_neg hbc, if_pos hcb] at h2
              simp at h2
            · have hac : a.toNat < c.toNat := by omega
              simp [hac]
        · by_cases hba : b.toNat < a.toNat
          · rw [if_neg hab, if_pos hba] at h1
            simp at h1
          · rw [if_neg hab, if_neg hba] at h1
            by_cases hbc : b.toNat < c.toNat
            · have hac : a.toNat < c.toNat := by omega
              simp [hac]
            · by_cases hcb : c.toNat < b.toNat
              · rw [if_neg hbc, if_pos hcb] at h2
                simp at h2
              · rw [if_neg hbc, if_neg hcb] at h2
                have hac : ¬ a.toNat < c.toNat := by omega
                have hca : ¬ c.toNat < a.toNat := by omega
                rw [if_neg hac, if_neg hca]
                exact ih bs cs h1 h2

/-- The symbol collation is antisymmetric. -/
theorem leChars_antisymm (as bs : List Char) (h1 : leChars as bs = true)
    (h2 : leChars bs as = true) : as = bs := by
  induction as generalizing bs with
  | nil =>
    cases bs with
    | nil => rfl
    | cons b bs => simp [leChars] at h2
  | cons a as ih =>
    cases bs with
    | nil => simp [leChars] at h1
    | cons b bs =>
      simp only [leChars] at h1 h2
      by_cases hab : a.toNat < b.toNat
      · rw [if_neg (by omega), if_pos hab] at h2
        simp at h2
      · by_cases hba : b.toNat < a.toNat
        · rw [if_neg hab, if_pos hba] at h1
          simp at h1
        · rw [if_neg hab, if_neg hba] at h1
          rw [if_neg hba, if_neg hab] at h2
          have hc : a = b := char_eq_of_toNat_eq (by omega)
          rw [hc, ih bs h1 h2]

instance : IsTotal String strLe := ⟨fun a b => leChars_total a.data b.data⟩

instance : IsTrans String strLe := ⟨fun a b c => leChars_trans a.data b.data c.data⟩

instance : IsAntisymm String strLe :=
  ⟨fun a b h1 h2 => by
    cases a with | mk ad =>
    cases b with | mk bd =>
    exact congrArg String.mk (leChars_antisymm ad bd h1 h2)⟩

/-- `sortSymbols` sorts with respect to the symbol collation. -/
theorem sortSymbols_sorted (l : List String) : (sortSymbols l).Sorted strLe :=
  List.sorted_insertionSort strLe l

/-- `sortSymbols` permutes its input. -/
theorem sortSymbols_perm (l : List String) : (sortSymbols l).Perm l :=
  List.perm_insertionSort strLe l

/-- `sortSymbols` maps permuted inputs to the same sorted output. -/
theorem sortSymbols_eq_of_perm (l1 l2 : List String) (h : l1.Perm l2) :
    sortSymbols l1 = sortSymbols l2 :=
  List.eq_of_perm_of_sorted
    ((sortSymbols_perm l1).trans (h.trans (sortSymbols_perm l2).symm))
    (sortSymbols_sorted l1) (sortSymbols_sorted l2)

/-- One step of `addAll`. -/
theorem addAll_cons (chat : Int) (a : String) (l : List String) (s : Store) :
    addAll chat (a :: l) s = addAll chat l (add_subscription false chat a s).2 := rfl

/-- Adding pairwise-distinct, already-uppercase symbols none of which is
subscribed yet appends one row per symbol, in order. -/
theorem addAll_subscriptions (chat : Int) (l : List String) (s : Store)
    (hup : ∀ x ∈ l, upper x = x) (hnd : l.Nodup)
    (habs : ∀ x ∈ l, (chat, x) ∉ s.subscriptions) :
    (addAll chat l s).subscriptions = s.subscriptions ++ l.map (fun x => (chat, x)) := by
  induction l generalizing s with
  | nil => simp [addAll]
  | cons a l ih =>
    have hua : upper a = a := hup a (List.mem_cons_self a l)
    have hnotmem : (chat, a) ∉ s.subscriptions := habs a (List.mem_cons_self a l)
    have hstep : (add_subscription false chat a s).2
        = { s with subscriptions := s.subscriptions ++ [(chat, a)] } := by
      rw [add_subscription_ok, hua, if_neg hnotmem]
    rw [addAll_cons, hstep]
    rw [ih _ (fun x hx => hup x (List.mem_cons_of_mem a hx)) (List.nodup_cons.mp hnd).2]
    · simp
    · intro x hx
      rw [List.mem_append]
      rintro (hmem | hmem)
      · exact habs x (List.mem_cons_of_mem a hx) hmem
      · rcases List.mem_singleton.mp hmem with h
        have hxa : x = a := congrArg Prod.snd h
        exact (List.nodup_cons.mp hnd).1 (hxa ▸ hx)

/-- The value `list_subscriptions` returns on the non-failing path. -/
theorem list_subscriptions_value (chat : Int) (s : Store) :
    (list_subscriptions false chat s).1
      = sortSymbols ((s.subscriptions.filter (fun p => p.1 == chat)).map Prod.snd) := rfl

/-- C6: after subscribing a chat (starting from an empty store) to
pairwise-distinct uppercase symbols in any order, `list_subscriptions`
returns exactly those symbols — a permutation of them — sorted
alphabetically, with the result independent of the insertion order. -/
theorem c6_list_subscriptions_sorted (chat : Int) (l1 l2 : List String)
    (hnd : l1.Nodup) (hup : ∀ x ∈ l1, upper x = x) (hp : l1.Perm l2) :
    (list_subscriptions false chat (addAll chat l2 emptyStore)).1 = sortSymbols l1
    ∧ (list_subscriptions false chat (addAll chat l2 emptyStore)).1.Perm l1
    ∧ (list_subscriptions false chat (addAll chat l2 emptyStore)).1.Sorted strLe := by
  have hnd2 : l2.Nodup := hp.nodup hnd
  have hup2 : ∀ x ∈ l2, upper x = x := fun x hx => hup x (hp.mem_iff.mpr hx)
  have hsubs : (addAll chat l2 emptyStore).subscriptions = l2.map (fun x => (chat, x)) := by
    have h := addAll_subscriptions chat l2 emptyStore hup2 hnd2
      (by intro x hx; simp [emptyStore])
    simpa [emptyStore] using h
  have hfil : (((addAll chat l2 emptyStore).subscriptions.filter
      (fun p => p.1 == chat)).map Prod.snd) = l2 := by
    rw [hsubs]
    rw [List.filter_eq_self.mpr (by intro a ha; rcases List.mem_map.mp ha with ⟨x, _, rfl⟩; simp)]
    rw [List.map_map]
    simp
  have hval : (list_subscriptions false chat (addAll chat l2 emptyStore)).1 = sortSymbols l2 := by
    rw [list_subscriptions_value, hfil]
  refine ⟨?_, ?_, ?_⟩
  · rw [hval]
    exact sortSymbols_eq_of_perm l2 l1 hp.symm
  · rw [hval]
    exact (sortSymbols_perm l2).trans hp.symm
  · rw [hval]
    exact sortSymbols_sorted l2

/-- Witness for C6: subscribing to ETH then BTC lists BTC before ETH, the
same as subscribing to BTC then ETH. -/
theorem c6_list_subscriptions_witness :
    (["BTC", "ETH"] : List String).Nodup
    ∧ (∀ x ∈ (["BTC", "ETH"] : List String), upper x = x)
    ∧ (["BTC", "ETH"] : List String).Perm ["ETH", "BTC"]
    ∧ (list_subscriptions false 1 (addAll 1 ["ETH", "BTC"] emptyStore)).1
        = sortSymbols ["BTC", "ETH"] :=
  ⟨by decide, by decide, by decide,
    (c6_list_subscriptions_sorted 1 ["BTC", "ETH"] ["ETH", "BTC"]
      (by decide) (by decide) (by decide)).1⟩

/-- The store for the C9 witness: chat 3 is subscribed to BTC only. -/
def c9Store : Store := ⟨[(3, "BTC")], [], [], []⟩

/-- Witness for C9: removing `"btc"` succeeds, removing `"eth"` returns
`false` and changes nothing. -/
theorem c9_remove_subscription_witness :
    c9Store.subscriptions.Nodup
    ∧ ((remove_subscription false 3 "btc" c9Store).1 = true
        ↔ (3, upper "btc") ∈ c9Store.subscriptions)
    ∧ ((3, upper "eth") ∉ c9Store.subscriptions
        → remove_subscription false 3 "eth" c9Store = (false, c9Store)) :=
  ⟨by decide, (c9_remove_subscription_iff 3 "btc" c9Store (by decide)).1,
    (c9_remove_subscription_iff 3 "eth" c9Store (by decide)).2⟩

end CoinBot
